import Mathlib

set_option linter.unnecessarySeqFocus false

/- Verification development for the podcast-summarizer backend.

The chunk packer (src/models/summarizers/utils/openai_summarizer_utils.py),
the adaptive summarization driver (src/models/summarizers/openai_summarizer.py),
the task record store (src/task_manager.py), the pipeline executor
(src/app.py, process_podcast) and the transcription polling loop
(src/models/transcribers/salad_transcriber.py) are embedded shallowly.

The tokenizer num_tokens_from_text delegates to the external tiktoken
library (encoding for gpt-3.5-turbo); it is modelled as an abstract
function from strings to natural numbers.  The only fact about the
concrete tokenizer that any proof relies on is stated as an explicit
hypothesis where needed (tiktoken encodes "..." as a single token, so
its count for "..." is at most any positive budget). -/

/-- Abstract tokenizer, standing for num_tokens_from_text (tiktoken). -/
abbrev Tok := String → ℕ

/-- Python str.join: `d.join(xs)` concatenates `xs` with `d` in between. -/
def pyJoin (d : String) : List String → String
  | [] => ""
  | [x] => x
  | x :: y :: xs => x ++ d ++ pyJoin d (y :: xs)

/-- Python str.split helper over character lists: scan left to right, cutting
at each non-overlapping occurrence of the separator. -/
def pySplitCharAux (sep : List Char) : List Char → List Char → List (List Char)
  | [], acc => [acc.reverse]
  | c :: cs, acc =>
    if sep.isPrefixOf (c :: cs) ∧ sep ≠ [] then
      acc.reverse :: pySplitCharAux sep ((c :: cs).drop sep.length) []
    else
      pySplitCharAux sep cs (c :: acc)
termination_by cs _ => cs.length
decreasing_by
  · simp
    rename_i h
    have : 1 ≤ sep.length := by
      cases sep
      · simp at h
      · simp
    omega
  · simp

/-- Python `text.split(sep)` for a non-empty separator (Python raises on an
empty separator; we totalise that case to `[s]`, no claim exercises it). -/
def pySplit (s sep : String) : List String :=
  if sep = "" then [s] else (pySplitCharAux sep.toList s.toList []).map String.mk

/-- Loop state of _combine_chunks_with_no_minimum: the emitted chunks, the
indices tracked for the current candidate, the current candidate pieces, and
the dropped-chunk counter. -/
structure CombineState where
  output : List String
  candidateIndices : List ℕ
  candidate : List String
  dropped : ℕ

/-- Body of the for-loop of _combine_chunks_with_no_minimum
(openai_summarizer_utils.py lines 91-117) for one enumerated chunk. -/
def combineStep (tok : Tok) (maxTokens : ℕ) (chunkDelimiter : String)
    (header : Option String) (addEllipsisForOverflow : Bool)
    (st : CombineState) (chunkI : ℕ) (chunk : String) : CombineState :=
  let chunkWithHeader := match header with
    | none => [chunk]
    | some h => [h, chunk]
  if maxTokens < tok (pyJoin chunkDelimiter chunkWithHeader) then
    if addEllipsisForOverflow ∧
        tok (pyJoin chunkDelimiter (st.candidate ++ ["..."])) ≤ maxTokens then
      { st with candidate := st.candidate ++ ["..."], dropped := st.dropped + 1 }
    else
      st
  else
    let extendedCandidateTokenCount :=
      tok (pyJoin chunkDelimiter (st.candidate ++ [chunk]))
    if maxTokens < extendedCandidateTokenCount then
      { st with output := st.output ++ [pyJoin chunkDelimiter st.candidate],
                candidate := chunkWithHeader,
                candidateIndices := [chunkI] }
    else
      { st with candidate := st.candidate ++ [chunk],
                candidateIndices := st.candidateIndices ++ [chunkI] }

/-- The for-loop of _combine_chunks_with_no_minimum over the enumerated
chunk list, starting at index `i`. -/
def combineLoop (tok : Tok) (maxTokens : ℕ) (chunkDelimiter : String)
    (header : Option String) (addEllipsisForOverflow : Bool) :
    List String → ℕ → CombineState → CombineState
  | [], _, st => st
  | chunk :: rest, i, st =>
      combineLoop tok maxTokens chunkDelimiter header addEllipsisForOverflow rest (i + 1)
        (combineStep tok maxTokens chunkDelimiter header addEllipsisForOverflow st i chunk)

/-- _combine_chunks_with_no_minimum (openai_summarizer_utils.py lines 65-125):
returns the combined chunk list and the dropped-chunk count. -/
def _combine_chunks_with_no_minimum (tok : Tok) (chunks : List String) (maxTokens : ℕ)
    (chunkDelimiter : String) (header : Option String) (addEllipsisForOverflow : Bool) :
    List String × ℕ :=
  let init : CombineState :=
    { output := [], candidateIndices := [],
      candidate := match header with | none => [] | some h => [h],
      dropped := 0 }
  let st := combineLoop tok maxTokens chunkDelimiter header addEllipsisForOverflow chunks 0 init
  let output :=
    if (header.isSome ∧ 1 < st.candidate.length) ∨ (header.isNone ∧ 0 < st.candidate.length) then
      st.output ++ [pyJoin chunkDelimiter st.candidate]
    else
      st.output
  (output, st.dropped)

/-- chunk_on_delimiter (openai_summarizer_utils.py lines 34-62): split on the
delimiter, combine under the budget (ellipsis markers enabled, no header),
then re-append the delimiter to every resulting chunk. -/
def chunk_on_delimiter (tok : Tok) (text : String) (maxTokens : ℕ)
    (delimiter : String) : List String :=
  let chunks := pySplit text delimiter
  let combined := _combine_chunks_with_no_minimum tok chunks maxTokens delimiter none true
  combined.1.map (fun chunk => chunk ++ delimiter)

/-- Relation between the input piece sequence of the combine loop (header
absent, ellipsis markers enabled) and the flat sequence of pieces that ends
up in its output: every piece within budget is kept in order; every oversized
piece is either replaced by a "..." marker (counted) or dropped silently
(not counted). -/
inductive packRel (tok : Tok) (maxTokens : ℕ) : List String → List String → ℕ → Prop
  | nil : packRel tok maxTokens [] [] 0
  | keep {p : String} {ps qs : List String} {n : ℕ} :
      tok p ≤ maxTokens → packRel tok maxTokens ps qs n →
      packRel tok maxTokens (p :: ps) (p :: qs) n
  | mark {p : String} {ps qs : List String} {n : ℕ} :
      maxTokens < tok p → packRel tok maxTokens ps qs n →
      packRel tok maxTokens (p :: ps) ("..." :: qs) (n + 1)
  | skip {p : String} {ps qs : List String} {n : ℕ} :
      maxTokens < tok p → packRel tok maxTokens ps qs n →
      packRel tok maxTokens (p :: ps) qs n

theorem pyJoin_nil (d : String) : pyJoin d [] = "" := rfl

theorem pyJoin_singleton (d x : String) : pyJoin d [x] = x := rfl

theorem pyJoin_append (d : String) (xs ys : List String) (hx : xs ≠ []) (hy : ys ≠ []) :
    pyJoin d (xs ++ ys) = pyJoin d xs ++ d ++ pyJoin d ys := by
  induction xs with
  | nil => exact absurd rfl hx
  | cons x xs ih =>
    cases xs with
    | nil =>
      cases ys with
      | nil => exact absurd rfl hy
      | cons y ys => simp [pyJoin]
    | cons x' xs' =>
      have := ih (by simp)
      simp only [List.cons_append] at this ⊢
      rw [pyJoin, pyJoin]
      · rw [this]
        simp [String.append_assoc]

theorem join_ne_nil_of_head_ne_nil {c : List String} {css : List (List String)}
    (h : c ≠ []) : (c :: css).flatten ≠ [] := by
  simp only [List.flatten_cons]
  intro hcontra
  rcases List.append_eq_nil.mp hcontra with ⟨h1, _⟩
  exact h h1

theorem pyJoin_groups (d : String) (css : List (List String))
    (h : ∀ c ∈ css, c ≠ []) :
    pyJoin d (css.map (pyJoin d)) = pyJoin d css.flatten := by
  induction css with
  | nil => rfl
  | cons c css ih =>
    cases css with
    | nil => simp [pyJoin]
    | cons c' css' =>
      have hc : c ≠ [] := h c (by simp)
      have hc' : c' ≠ [] := h c' (by simp)
      have hrest : ∀ x ∈ (c' :: css'), x ≠ [] := fun x hx => h x (by simp [hx])
      have hjoin : (c' :: css').flatten ≠ [] := join_ne_nil_of_head_ne_nil hc'
      rw [List.map_cons, List.flatten_cons]
      rw [pyJoin_append d c (c' :: css').flatten hc hjoin]
      rw [← ih hrest]
      cases hmap : (c' :: css').map (pyJoin d) with
      | nil => simp at hmap
      | cons m ms => rw [pyJoin]

theorem combineStep_mark (tok : Tok) (maxT : ℕ) (d : String)
    (st : CombineState) (i : ℕ) (chunk : String)
    (h1 : maxT < tok chunk)
    (h2 : tok (pyJoin d (st.candidate ++ ["..."])) ≤ maxT) :
    combineStep tok maxT d none true st i chunk =
      { st with candidate := st.candidate ++ ["..."], dropped := st.dropped + 1 } := by
  simp [combineStep, pyJoin, h1, h2]

theorem combineStep_skip (tok : Tok) (maxT : ℕ) (d : String)
    (st : CombineState) (i : ℕ) (chunk : String)
    (h1 : maxT < tok chunk)
    (h2 : ¬ tok (pyJoin d (st.candidate ++ ["..."])) ≤ maxT) :
    combineStep tok maxT d none true st i chunk = st := by
  simp [combineStep, pyJoin, h1, h2]

theorem combineStep_flush (tok : Tok) (maxT : ℕ) (d : String)
    (st : CombineState) (i : ℕ) (chunk : String)
    (h1 : ¬ maxT < tok chunk)
    (h2 : maxT < tok (pyJoin d (st.candidate ++ [chunk]))) :
    combineStep tok maxT d none true st i chunk =
      { st with output := st.output ++ [pyJoin d st.candidate],
                candidate := [chunk], candidateIndices := [i] } := by
  simp [combineStep, pyJoin, h1, h2]

theorem combineStep_extend (tok : Tok) (maxT : ℕ) (d : String)
    (st : CombineState) (i : ℕ) (chunk : String)
    (h1 : ¬ maxT < tok chunk)
    (h2 : ¬ maxT < tok (pyJoin d (st.candidate ++ [chunk]))) :
    combineStep tok maxT d none true st i chunk =
      { st with candidate := st.candidate ++ [chunk],
                candidateIndices := st.candidateIndices ++ [i] } := by
  simp [combineStep, pyJoin, h1, h2]

theorem combineLoop_inv (tok : Tok) (maxT : ℕ) (d : String) :
    ∀ (chunks : List String) (i : ℕ) (st : CombineState) (css : List (List String)),
    st.output = css.map (pyJoin d) →
    (∀ c ∈ css, c ≠ []) →
    (∀ c ∈ css, tok (pyJoin d c) ≤ maxT) →
    (st.candidate = [] ∨ tok (pyJoin d st.candidate) ≤ maxT) →
    ∃ (css' : List (List String)) (flat : List String) (n : ℕ),
      (combineLoop tok maxT d none true chunks i st).output = css'.map (pyJoin d) ∧
      (∀ c ∈ css', c ≠ []) ∧
      (∀ c ∈ css', tok (pyJoin d c) ≤ maxT) ∧
      ((combineLoop tok maxT d none true chunks i st).candidate = [] ∨
        tok (pyJoin d (combineLoop tok maxT d none true chunks i st).candidate) ≤ maxT) ∧
      packRel tok maxT chunks flat n ∧
      (combineLoop tok maxT d none true chunks i st).dropped = st.dropped + n ∧
      css'.flatten ++ (combineLoop tok maxT d none true chunks i st).candidate =
        css.flatten ++ st.candidate ++ flat := by
  intro chunks
  induction chunks with
  | nil =>
    intro i st css h1 h2 h3 h4
    simp only [combineLoop]
    exact ⟨css, [], 0, h1, h2, h3, h4, packRel.nil, rfl, by simp⟩
  | cons chunk rest ih =>
    intro i st css h1 h2 h3 h4
    simp only [combineLoop]
    by_cases hover : maxT < tok chunk
    · by_cases hfit : tok (pyJoin d (st.candidate ++ ["..."])) ≤ maxT
      · rw [combineStep_mark tok maxT d st i chunk hover hfit]
        obtain ⟨css', flat', n', g1, g2, g3, g4, g5, g6, g7⟩ :=
          ih (i + 1) { st with candidate := st.candidate ++ ["..."],
                               dropped := st.dropped + 1 } css h1 h2 h3 (Or.inr hfit)
        refine ⟨css', "..." :: flat', n' + 1, g1, g2, g3, g4, packRel.mark hover g5, ?_, ?_⟩
        · rw [g6]
          show st.dropped + 1 + n' = st.dropped + (n' + 1)
          omega
        · rw [g7]; simp
      · rw [combineStep_skip tok maxT d st i chunk hover hfit]
        obtain ⟨css', flat', n', g1, g2, g3, g4, g5, g6, g7⟩ :=
          ih (i + 1) st css h1 h2 h3 h4
        exact ⟨css', flat', n', g1, g2, g3, g4, packRel.skip hover g5, g6, g7⟩
    · by_cases hext : maxT < tok (pyJoin d (st.candidate ++ [chunk]))
      · have hcand_ne : st.candidate ≠ [] := by
          intro hc
          rw [hc] at hext
          simp [pyJoin] at hext
          exact hover hext
        have hcand_le : tok (pyJoin d st.candidate) ≤ maxT := by
          rcases h4 with hc | hc
          · exact absurd hc hcand_ne
          · exact hc
        rw [combineStep_flush tok maxT d st i chunk hover hext]
        obtain ⟨css', flat', n', g1, g2, g3, g4, g5, g6, g7⟩ :=
          ih (i + 1)
            { st with output := st.output ++ [pyJoin d st.candidate],
                      candidate := [chunk], candidateIndices := [i] }
            (css ++ [st.candidate])
            (by simp [h1])
            (by
              intro c hc
              rcases List.mem_append.mp hc with h | h
              · exact h2 c h
              · simp at h
                subst h
                exact hcand_ne)
            (by
              intro c hc
              rcases List.mem_append.mp hc with h | h
              · exact h3 c h
              · simp at h
                subst h
                exact hcand_le)
            (Or.inr (by simpa [pyJoin] using Nat.le_of_not_lt hover))
        refine ⟨css', chunk :: flat', n', g1, g2, g3, g4,
          packRel.keep (Nat.le_of_not_lt hover) g5, g6, ?_⟩
        rw [g7]; simp
      · rw [combineStep_extend tok maxT d st i chunk hover hext]
        obtain ⟨css', flat', n', g1, g2, g3, g4, g5, g6, g7⟩ :=
          ih (i + 1) { st with candidate := st.candidate ++ [chunk],
                               candidateIndices := st.candidateIndices ++ [i] }
            css h1 h2 h3 (Or.inr (Nat.le_of_not_lt hext))
        refine ⟨css', chunk :: flat', n', g1, g2, g3, g4,
          packRel.keep (Nat.le_of_not_lt hover) g5, g6, ?_⟩
        rw [g7]; simp

theorem combine_spec (tok : Tok) (chunks : List String) (maxT : ℕ) (d : String) :
    ∃ (css : List (List String)) (n : ℕ),
      (_combine_chunks_with_no_minimum tok chunks maxT d none true).1 =
        css.map (pyJoin d) ∧
      (∀ c ∈ css, c ≠ []) ∧
      (∀ c ∈ css, tok (pyJoin d c) ≤ maxT) ∧
      packRel tok maxT chunks css.flatten n ∧
      (_combine_chunks_with_no_minimum tok chunks maxT d none true).2 = n := by
  obtain ⟨css', flat', n', g1, g2, g3, g4, g5, g6, g7⟩ :=
    combineLoop_inv tok maxT d chunks 0
      { output := [], candidateIndices := [], candidate := [], dropped := 0 }
      [] (by simp) (by simp) (by simp) (Or.inl rfl)
  simp only [List.flatten_nil, List.nil_append] at g7
  rcases g4 with hcand | hcand
  · refine ⟨css', n', ?_, g2, g3, ?_, ?_⟩
    · simp [_combine_chunks_with_no_minimum, hcand, g1]
    · rw [hcand, List.append_nil] at g7
      rw [g7]
      exact g5
    · simp [_combine_chunks_with_no_minimum, g6]
  · by_cases hnil : (combineLoop tok maxT d none true chunks 0
      { output := [], candidateIndices := [], candidate := [], dropped := 0 }).candidate = []
    · refine ⟨css', n', ?_, g2, g3, ?_, ?_⟩
      · simp [_combine_chunks_with_no_minimum, hnil, g1]
      · rw [hnil, List.append_nil] at g7
        rw [g7]
        exact g5
      · simp [_combine_chunks_with_no_minimum, g6]
    · refine ⟨css' ++ [(combineLoop tok maxT d none true chunks 0
        { output := [], candidateIndices := [], candidate := [], dropped := 0 }).candidate],
        n', ?_, ?_, ?_, ?_, ?_⟩
      · have hlen : 0 < (combineLoop tok maxT d none true chunks 0
          { output := [], candidateIndices := [], candidate := [], dropped := 0 }).candidate.length :=
          List.length_pos.mpr hnil
        simp [_combine_chunks_with_no_minimum, hlen, g1]
      · intro c hc
        rcases List.mem_append.mp hc with h | h
        · exact g2 c h
        · simp at h
          subst h
          exact hnil
      · intro c hc
        rcases List.mem_append.mp hc with h | h
        · exact g3 c h
        · simp at h
          subst h
          exact hcand
      · rw [List.flatten_append]
        simp only [List.flatten_cons, List.flatten_nil, List.append_nil]
        rw [g7]
        exact g5
      · simp [_combine_chunks_with_no_minimum, g6]

theorem packRel_count_le (tok : Tok) (maxT : ℕ) {ps qs : List String} {n : ℕ}
    (h : packRel tok maxT ps qs n) :
    n ≤ (ps.filter (fun p => decide (maxT < tok p))).length := by
  induction h with
  | nil => simp
  | keep hp _ ih =>
    rw [List.filter_cons]
    split
    · simp only [List.length_cons]
      omega
    · exact ih
  | mark hp _ ih =>
    rw [List.filter_cons, if_pos (by simpa using hp)]
    simp only [List.length_cons]
    omega
  | skip hp _ ih =>
    rw [List.filter_cons, if_pos (by simpa using hp)]
    simp only [List.length_cons]
    omega

theorem pySplitCharAux_ne_nil (sep : List Char) (cs acc : List Char) :
    pySplitCharAux sep cs acc ≠ [] := by
  induction cs, acc using pySplitCharAux.induct sep with
  | _ => rw [pySplitCharAux] <;> simp_all <;> split <;> simp_all

theorem pySplit_ne_nil (s sep : String) : pySplit s sep ≠ [] := by
  rw [pySplit]
  split
  · simp
  · simp [pySplitCharAux_ne_nil]

theorem combineStep_candidate_ne_nil (tok : Tok) (maxT : ℕ) (d : String)
    (hell : tok "..." ≤ maxT) (st : CombineState) (i : ℕ) (chunk : String) :
    (combineStep tok maxT d none true st i chunk).candidate ≠ [] := by
  by_cases hover : maxT < tok chunk
  · by_cases hfit : tok (pyJoin d (st.candidate ++ ["..."])) ≤ maxT
    · rw [combineStep_mark tok maxT d st i chunk hover hfit]
      simp
    · rw [combineStep_skip tok maxT d st i chunk hover hfit]
      intro hc
      apply hfit
      rw [hc]
      simpa [pyJoin] using hell
  · by_cases hext : maxT < tok (pyJoin d (st.candidate ++ [chunk]))
    · rw [combineStep_flush tok maxT d st i chunk hover hext]
      simp
    · rw [combineStep_extend tok maxT d st i chunk hover hext]
      simp

theorem combineLoop_candidate_ne_nil (tok : Tok) (maxT : ℕ) (d : String)
    (hell : tok "..." ≤ maxT) :
    ∀ (chunks : List String) (i : ℕ) (st : CombineState), chunks ≠ [] →
    (combineLoop tok maxT d none true chunks i st).candidate ≠ [] := by
  intro chunks
  induction chunks with
  | nil => intro i st h; exact absurd rfl h
  | cons chunk rest ih =>
    intro i st _
    simp only [combineLoop]
    cases hrest : rest with
    | nil =>
      simp only [combineLoop]
      exact combineStep_candidate_ne_nil tok maxT d hell st i chunk
    | cons r rs =>
      rw [← hrest]
      exact ih (i + 1) _ (by simp [hrest])

theorem combine_output_ne_nil (tok : Tok) (chunks : List String) (maxT : ℕ) (d : String)
    (hchunks : chunks ≠ []) (hell : tok "..." ≤ maxT) :
    (_combine_chunks_with_no_minimum tok chunks maxT d none true).1 ≠ [] := by
  have hcand := combineLoop_candidate_ne_nil tok maxT d hell chunks 0
    { output := [], candidateIndices := [], candidate := [], dropped := 0 } hchunks
  have hlen : 0 < (combineLoop tok maxT d none true chunks 0
      { output := [], candidateIndices := [], candidate := [], dropped := 0 }).candidate.length :=
    List.length_pos.mpr hcand
  simp [_combine_chunks_with_no_minimum, hlen]

theorem chunk_on_delimiter_ne_nil (tok : Tok) (text : String) (maxT : ℕ) (delim : String)
    (hell : tok "..." ≤ maxT) :
    chunk_on_delimiter tok text maxT delim ≠ [] := by
  rw [chunk_on_delimiter]
  simp only [ne_eq, List.map_eq_nil_iff]
  exact combine_output_ne_nil tok (pySplit text delim) maxT delim (pySplit_ne_nil text delim) hell

/-- Python `int(q)` on a real value: truncation toward zero. -/
def ratTrunc (q : ℚ) : ℤ := if 0 ≤ q then ⌊q⌋ else ⌈q⌉

/-- Default minimum chunk-size budget of the summarizer
(openai_summarizer.py line 18). -/
def DEFAULT_MINIMUM_CHUNK_SIZE : ℕ := 500

/-- max_chunks of OpenAI_Summarizer.summarize (openai_summarizer.py lines
87-94): the number of segments of the first, finest packing pass, at the
minimum chunk-size budget. -/
def summarize_max_chunks (tok : Tok) (text : String) (minimumChunkSize : ℕ)
    (chunkDelimiter : String) : ℕ :=
  (chunk_on_delimiter tok text minimumChunkSize chunkDelimiter).length

/-- num_chunks of OpenAI_Summarizer.summarize (openai_summarizer.py line 95):
`int(min_chunks + detail * (max_chunks - min_chunks))` with min_chunks = 1.
The float detail is modelled as a rational. -/
def summarize_num_chunks (tok : Tok) (text : String) (detail : ℚ)
    (minimumChunkSize : ℕ) (chunkDelimiter : String) : ℤ :=
  let min_chunks : ℚ := 1
  let max_chunks : ℚ := (summarize_max_chunks tok text minimumChunkSize chunkDelimiter : ℚ)
  ratTrunc (min_chunks + detail * (max_chunks - min_chunks))

/-- chunk_size of OpenAI_Summarizer.summarize (openai_summarizer.py line 99):
`max(minimum_chunk_size, document_length // num_chunks)` where
document_length = num_tokens_from_text(text) and `//` is floor division. -/
def summarize_chunk_size (tok : Tok) (text : String) (detail : ℚ)
    (minimumChunkSize : ℕ) (chunkDelimiter : String) : ℤ :=
  max (minimumChunkSize : ℤ)
    (Int.fdiv (tok text : ℤ) (summarize_num_chunks tok text detail minimumChunkSize chunkDelimiter))

/-- text_chunks of OpenAI_Summarizer.summarize (openai_summarizer.py lines
100-102): the second packing pass at the recomputed budget. -/
def summarize_text_chunks (tok : Tok) (text : String) (detail : ℚ)
    (minimumChunkSize : ℕ) (chunkDelimiter : String) : List String :=
  chunk_on_delimiter tok text
    (summarize_chunk_size tok text detail minimumChunkSize chunkDelimiter).toNat
    chunkDelimiter

/-- Modelled from the spec words, for comparison in claim C2 only: the spec
states `num_chunks = round(1 + detail * (max_chunks - 1))`, clamped to at
least 1 (`round` is rounding to the nearest integer). -/
def spec_round_num_chunks (tok : Tok) (text : String) (detail : ℚ)
    (minimumChunkSize : ℕ) (chunkDelimiter : String) : ℤ :=
  max 1 (round (1 + detail * ((summarize_max_chunks tok text minimumChunkSize chunkDelimiter : ℚ) - 1)))

theorem summarize_max_chunks_pos (tok : Tok) (text : String) (minChunk : ℕ) (delim : String)
    (hell : tok "..." ≤ minChunk) : 1 ≤ summarize_max_chunks tok text minChunk delim := by
  rw [summarize_max_chunks]
  exact List.length_pos.mpr (chunk_on_delimiter_ne_nil tok text minChunk delim hell)

theorem summarize_num_chunks_eq_ratTrunc (tok : Tok) (text : String) (detail : ℚ)
    (minChunk : ℕ) (delim : String) :
    summarize_num_chunks tok text detail minChunk delim =
      ratTrunc (1 + detail * ((summarize_max_chunks tok text minChunk delim : ℚ) - 1)) := rfl

theorem summarize_num_chunks_bounds (tok : Tok) (text : String) (detail : ℚ)
    (minChunk : ℕ) (delim : String)
    (h0 : 0 ≤ detail) (h1 : detail ≤ 1)
    (hM : 1 ≤ summarize_max_chunks tok text minChunk delim) :
    1 ≤ summarize_num_chunks tok text detail minChunk delim ∧
    summarize_num_chunks tok text detail minChunk delim ≤
      (summarize_max_chunks tok text minChunk delim : ℤ) := by
  have hM1 : (1 : ℚ) ≤ (summarize_max_chunks tok text minChunk delim : ℚ) := by
    exact_mod_cast hM
  have hval1 : (1 : ℚ) ≤ 1 + detail * ((summarize_max_chunks tok text minChunk delim : ℚ) - 1) := by
    nlinarith
  have hvalM : 1 + detail * ((summarize_max_chunks tok text minChunk delim : ℚ) - 1) ≤
      (summarize_max_chunks tok text minChunk delim : ℚ) := by
    nlinarith
  rw [summarize_num_chunks_eq_ratTrunc, ratTrunc, if_pos (by linarith)]
  constructor
  · exact Int.le_floor.mpr (by push_cast; linarith)
  · have hfl := Int.floor_le_floor hvalM
    rwa [Int.floor_natCast] at hfl

theorem summarize_num_chunks_detail_zero (tok : Tok) (text : String)
    (minChunk : ℕ) (delim : String) :
    summarize_num_chunks tok text 0 minChunk delim = 1 := by
  rw [summarize_num_chunks_eq_ratTrunc]
  norm_num [ratTrunc]

theorem summarize_num_chunks_detail_one (tok : Tok) (text : String)
    (minChunk : ℕ) (delim : String) :
    summarize_num_chunks tok text 1 minChunk delim =
      (summarize_max_chunks tok text minChunk delim : ℤ) := by
  rw [summarize_num_chunks_eq_ratTrunc]
  have hv : (1 : ℚ) + 1 * ((summarize_max_chunks tok text minChunk delim : ℚ) - 1) =
      (summarize_max_chunks tok text minChunk delim : ℚ) := by ring
  rw [hv, ratTrunc, if_pos (by positivity), Int.floor_natCast]

/-- Claim C1 is false as stated: with token counts given by string length,
text "ab", max_tokens 2 and delimiter "c", the packer returns the single
segment "abc" (delimiter re-appended), whose token count 3 exceeds the
budget 2. -/
theorem claim_C1_counterexample :
    "abc" ∈ chunk_on_delimiter String.length "ab" 2 "c" ∧
    2 < String.length "abc" := by
  have hsplit : pySplit "ab" "c" = ["ab"] := by simp [pySplit, pySplitCharAux]
  constructor
  · simp only [chunk_on_delimiter, hsplit]
    decide
  · decide

/-- Claim C1 (amended): every segment built by the combine pass of the Chunk
Packer respects the token budget BEFORE the delimiter is re-appended, and
chunk_on_delimiter returns exactly these segments with the delimiter appended
afterwards (the re-appended delimiter may push a segment over the budget,
because the budget check never sees it). -/
theorem claim_C1_amended (tok : Tok) (text : String) (maxTokens : ℕ) (delimiter : String) :
    chunk_on_delimiter tok text maxTokens delimiter =
      ((_combine_chunks_with_no_minimum tok (pySplit text delimiter) maxTokens delimiter none true).1).map
        (fun chunk => chunk ++ delimiter) ∧
    ∀ seg ∈ (_combine_chunks_with_no_minimum tok (pySplit text delimiter) maxTokens delimiter none true).1,
      tok seg ≤ maxTokens := by
  refine ⟨rfl, ?_⟩
  obtain ⟨css, n, h1, h2, h3, _, _⟩ := combine_spec tok (pySplit text delimiter) maxTokens delimiter
  intro seg hseg
  rw [h1] at hseg
  obtain ⟨c, hc, rfl⟩ := List.mem_map.mp hseg
  exact h3 c hc

theorem claim_C1_amended_witness : String.length "ab" ≤ 2 :=
  (claim_C1_amended String.length "ab" 2 "c").2 "ab" (by
    have hsplit : pySplit "ab" "c" = ["ab"] := by simp [pySplit, pySplitCharAux]
    rw [hsplit]
    decide)

/-- Claim C4 is false as stated: with token counts given by string length,
text "abcd", max_tokens 3 and delimiter ",", the single piece "abcd" is
oversized and dropped, but a "..." marker is appended, so the stripped
concatenation is "..." while the claim predicts the empty concatenation of
the zero kept pieces. -/
theorem claim_C4_counterexample :
    chunk_on_delimiter String.length "abcd" 3 "," = ["...,"] ∧
    ("...,").dropRight 1 = "..." ∧
    pyJoin "," ["..."] ≠
      pyJoin "," ((pySplit "abcd" ",").filter (fun p => p.length ≤ 3)) := by
  have hsplit : pySplit "abcd" "," = ["abcd"] := by simp [pySplit, pySplitCharAux]
  refine ⟨?_, by decide, ?_⟩
  · simp only [chunk_on_delimiter, hsplit]
    decide
  · rw [hsplit]
    decide

/-- Claim C4 (amended): stripping the re-appended delimiter from the segments
of chunk_on_delimiter and joining them on the delimiter reproduces the
original delimiter-split piece sequence minus the dropped oversized pieces,
except that a "..." marker piece may stand in place of a dropped oversized
piece; kept pieces are not added, removed or reordered (packRel). -/
theorem claim_C4_amended (tok : Tok) (text : String) (maxTokens : ℕ) (delimiter : String) :
    ∃ (flat : List String) (n : ℕ),
      packRel tok maxTokens (pySplit text delimiter) flat n ∧
      pyJoin delimiter
        ((_combine_chunks_with_no_minimum tok (pySplit text delimiter) maxTokens delimiter none true).1) =
        pyJoin delimiter flat ∧
      chunk_on_delimiter tok text maxTokens delimiter =
        ((_combine_chunks_with_no_minimum tok (pySplit text delimiter) maxTokens delimiter none true).1).map
          (fun chunk => chunk ++ delimiter) := by
  obtain ⟨css, n, h1, h2, h3, h4, h5⟩ := combine_spec tok (pySplit text delimiter) maxTokens delimiter
  refine ⟨css.flatten, n, h4, ?_, rfl⟩
  rw [h1]
  exact pyJoin_groups delimiter css h2

/-- Claim C7 is false as stated: with token counts given by string length,
text "abcd,efgh", max_tokens 3 and delimiter ",", both pieces are oversized
and dropped, but the returned dropped count is 1 (only the first drop
appended a marker within budget), not 2. -/
theorem claim_C7_counterexample :
    (_combine_chunks_with_no_minimum String.length (pySplit "abcd,efgh" ",") 3 "," none true).2 = 1 ∧
    ((pySplit "abcd,efgh" ",").filter (fun p => decide (3 < String.length p))).length = 2 ∧
    (1 : ℕ) ≠ 2 := by
  have hsplit : pySplit "abcd,efgh" "," = ["abcd", "efgh"] := by simp [pySplit, pySplitCharAux]
  rw [hsplit]
  refine ⟨by decide, by decide, by decide⟩

/-- Claim C7 (amended): the dropped count returned by the Chunk Packer equals
the number of oversized pieces dropped WITH a "..." marker appended (the mark
steps of packRel); oversized pieces dropped when the marker did not fit are
not counted, so the count is at most the total number of oversized pieces. -/
theorem claim_C7_amended (tok : Tok) (text : String) (maxTokens : ℕ) (delimiter : String) :
    ∃ flat : List String,
      packRel tok maxTokens (pySplit text delimiter) flat
        (_combine_chunks_with_no_minimum tok (pySplit text delimiter) maxTokens delimiter none true).2 ∧
      (_combine_chunks_with_no_minimum tok (pySplit text delimiter) maxTokens delimiter none true).2 ≤
        ((pySplit text delimiter).filter (fun p => decide (maxTokens < tok p))).length := by
  obtain ⟨css, n, h1, h2, h3, h4, h5⟩ := combine_spec tok (pySplit text delimiter) maxTokens delimiter
  refine ⟨css.flatten, ?_, ?_⟩
  · rw [h5]
    exact h4
  · rw [h5]
    exact packRel_count_le tok maxTokens h4

/-- Claim C2 is false as stated: with token counts given by string length,
text "ab.cd", delimiter "." and minimum chunk size 2, the finest packing has
max_chunks = 2; at detail = 1/2 the claimed formula round(1 + detail *
(max_chunks - 1)) = round(3/2) gives 2, but summarize computes
int(1 + detail * (max_chunks - 1)) = int(3/2) = 1 by truncation. -/
theorem claim_C2_counterexample :
    summarize_num_chunks String.length "ab.cd" (1/2) 2 "." = 1 ∧
    spec_round_num_chunks String.length "ab.cd" (1/2) 2 "." = 2 ∧
    (1 : ℤ) ≠ 2 := by
  have hcod : chunk_on_delimiter String.length "ab.cd" 2 "." = ["ab.", "cd."] := by
    have hsplit : pySplit "ab.cd" "." = ["ab", "cd"] := by simp [pySplit, pySplitCharAux]
    simp only [chunk_on_delimiter, hsplit]
    decide
  have hmax : summarize_max_chunks String.length "ab.cd" 2 "." = 2 := by
    rw [summarize_max_chunks, hcod]
    rfl
  have hval : (1 : ℚ) + 1/2 * (((2 : ℕ) : ℚ) - 1) = 3/2 := by norm_num
  refine ⟨?_, ?_, by decide⟩
  · rw [summarize_num_chunks_eq_ratTrunc, hmax, hval, ratTrunc, if_pos (by norm_num),
      Int.floor_eq_iff] <;> norm_num
  · simp only [spec_round_num_chunks]
    rw [hmax, hval, round_eq]
    norm_num

/-- Claim C2 (amended): summarize computes its target chunk count by
TRUNCATION, num_chunks = int(1 + detail * (max_chunks - 1)); there is no
explicit clamp, but for detail in [0,1] the value is automatically at least 1
(using that the fixed tokenizer gives "..." a count within the minimum
budget, so max_chunks ≥ 1); detail = 0 yields num_chunks = 1 and detail = 1
yields num_chunks = max_chunks. -/
theorem claim_C2_amended (tok : Tok) (text : String) (detail : ℚ)
    (minimumChunkSize : ℕ) (chunkDelimiter : String)
    (h0 : 0 ≤ detail) (h1 : detail ≤ 1)
    (hell : tok "..." ≤ minimumChunkSize) :
    summarize_num_chunks tok text detail minimumChunkSize chunkDelimiter =
      ratTrunc (1 + detail * ((summarize_max_chunks tok text minimumChunkSize chunkDelimiter : ℚ) - 1)) ∧
    1 ≤ summarize_num_chunks tok text detail minimumChunkSize chunkDelimiter ∧
    summarize_num_chunks tok text 0 minimumChunkSize chunkDelimiter = 1 ∧
    summarize_num_chunks tok text 1 minimumChunkSize chunkDelimiter =
      (summarize_max_chunks tok text minimumChunkSize chunkDelimiter : ℤ) := by
  refine ⟨rfl, ?_, summarize_num_chunks_detail_zero tok text minimumChunkSize chunkDelimiter,
    summarize_num_chunks_detail_one tok text minimumChunkSize chunkDelimiter⟩
  exact (summarize_num_chunks_bounds tok text detail minimumChunkSize chunkDelimiter h0 h1
    (summarize_max_chunks_pos tok text minimumChunkSize chunkDelimiter hell)).1

theorem claim_C2_amended_witness :
    summarize_num_chunks String.length "ab.cd" (1/2) 500 "." =
      ratTrunc (1 + (1/2) * ((summarize_max_chunks String.length "ab.cd" 500 "." : ℚ) - 1)) ∧
    1 ≤ summarize_num_chunks String.length "ab.cd" (1/2) 500 "." ∧
    summarize_num_chunks String.length "ab.cd" 0 500 "." = 1 ∧
    summarize_num_chunks String.length "ab.cd" 1 500 "." =
      (summarize_max_chunks String.length "ab.cd" 500 "." : ℤ) :=
  claim_C2_amended String.length "ab.cd" (1/2) 500 "." (by norm_num) (by norm_num) (by decide)

/-- Claim C3: for every detail in [0,1], the num_chunks computed inside
summarize satisfies 1 ≤ num_chunks ≤ max_chunks, where max_chunks is the
segment count of the first (finest) packing pass.  The tokenizer hypothesis
(the count of "..." is within the minimum budget) holds for the fixed
tokenizer, which encodes "..." as one token, for any positive budget. -/
theorem claim_C3 (tok : Tok) (text : String) (detail : ℚ)
    (minimumChunkSize : ℕ) (chunkDelimiter : String)
    (h0 : 0 ≤ detail) (h1 : detail ≤ 1)
    (hell : tok "..." ≤ minimumChunkSize) :
    1 ≤ summarize_num_chunks tok text detail minimumChunkSize chunkDelimiter ∧
    summarize_num_chunks tok text detail minimumChunkSize chunkDelimiter ≤
      (summarize_max_chunks tok text minimumChunkSize chunkDelimiter : ℤ) :=
  summarize_num_chunks_bounds tok text detail minimumChunkSize chunkDelimiter h0 h1
    (summarize_max_chunks_pos tok text minimumChunkSize chunkDelimiter hell)

theorem claim_C3_witness :
    1 ≤ summarize_num_chunks String.length "ab.cd" (1/2) 500 "." ∧
    summarize_num_chunks String.length "ab.cd" (1/2) 500 "." ≤
      (summarize_max_chunks String.length "ab.cd" 500 "." : ℤ) :=
  claim_C3 String.length "ab.cd" (1/2) 500 "." (by norm_num) (by norm_num) (by decide)

/-- Claim C10: chunk_on_delimiter returns a non-empty list for every text and
delimiter, provided the tokenizer gives "..." a count within the budget (true
of the fixed tokenizer, which encodes "..." as one token, for every positive
budget); consequently max_chunks ≥ 1, num_chunks ≥ 1 and the floor division
document_length // num_chunks in summarize never divides by zero for any
detail in [0,1]. -/
theorem claim_C10 (tok : Tok) (text : String) (maxTokens : ℕ) (delimiter : String)
    (detail : ℚ) (minimumChunkSize : ℕ)
    (hellMax : tok "..." ≤ maxTokens) (hellMin : tok "..." ≤ minimumChunkSize)
    (h0 : 0 ≤ detail) (h1 : detail ≤ 1) :
    chunk_on_delimiter tok text maxTokens delimiter ≠ [] ∧
    1 ≤ summarize_max_chunks tok text minimumChunkSize delimiter ∧
    1 ≤ summarize_num_chunks tok text detail minimumChunkSize delimiter ∧
    summarize_num_chunks tok text detail minimumChunkSize delimiter ≠ 0 := by
  have hM := summarize_max_chunks_pos tok text minimumChunkSize delimiter hellMin
  have hnc := (summarize_num_chunks_bounds tok text detail minimumChunkSize delimiter h0 h1 hM).1
  exact ⟨chunk_on_delimiter_ne_nil tok text maxTokens delimiter hellMax, hM, hnc, by omega⟩

theorem claim_C10_witness :
    chunk_on_delimiter String.length "ab.cd" 500 "." ≠ [] ∧
    1 ≤ summarize_max_chunks String.length "ab.cd" 500 "." ∧
    1 ≤ summarize_num_chunks String.length "ab.cd" (1/2) 500 "." ∧
    summarize_num_chunks String.length "ab.cd" (1/2) 500 "." ≠ 0 :=
  claim_C10 String.length "ab.cd" 500 "." (1/2) 500 (by decide) (by decide)
    (by norm_num) (by norm_num)

/-- TaskStatus (task_manager.py lines 8-14). -/
inductive TaskStatus
  | failed
  | pending
  | completed
  | downloading
  | summarizing
  | transcribing
deriving DecidableEq

/-- Result payload assembled by process_podcast (app.py lines 171-178). -/
structure SummaryResult where
  title : String
  summary : String
  thumbnail : Option String
  channel : String
  duration_string : String
  release_date : String
deriving DecidableEq

/-- TaskInfo record (task_manager.py lines 17-26).  Timestamps are modelled
as rationals supplied by the caller in place of time.time(). -/
structure TaskInfo where
  task_id : String
  status : TaskStatus
  progress : ℚ
  message : String
  created_at : ℚ
  updated_at : ℚ
  result : Option SummaryResult
  error : Option String
deriving DecidableEq

/-- Keyword arguments of TaskInfo.update (task_manager.py lines 34-41): a
`none` field models the Python default None, meaning the field is absent. -/
structure UpdateFields where
  status : Option TaskStatus := none
  progress : Option ℚ := none
  message : Option String := none
  result : Option SummaryResult := none
  error : Option String := none
deriving DecidableEq

/-- TaskInfo.update (task_manager.py lines 34-52): each field supplied with a
non-None value overwrites the stored one, absent fields are kept, and
updated_at is set to the current time. -/
def TaskInfo.update (t : TaskInfo) (f : UpdateFields) (now : ℚ) : TaskInfo :=
  { t with
    status := match f.status with | some s => s | none => t.status,
    progress := match f.progress with | some p => p | none => t.progress,
    message := match f.message with | some m => m | none => t.message,
    result := match f.result with | some r => some r | none => t.result,
    error := match f.error with | some e => some e | none => t.error,
    updated_at := now }

/-- The tasks dictionary of TaskManager (task_manager.py line 57), modelled
as a map from task id to record. -/
def TaskManager := String → Option TaskInfo

/-- TaskManager.create_task (task_manager.py lines 60-66): insert a fresh
pending record and return it. -/
def TaskManager.create_task (m : TaskManager) (task_id : String) (now : ℚ) :
    TaskInfo × TaskManager :=
  let task : TaskInfo :=
    { task_id := task_id, status := TaskStatus.pending, progress := 0,
      message := "Task created", created_at := now, updated_at := now,
      result := none, error := none }
  (task, fun k => if k = task_id then some task else m k)

/-- TaskManager.update_task (task_manager.py lines 72-77): update in place
when the id is present and return the record, otherwise return None and
leave the store untouched. -/
def TaskManager.update_task (m : TaskManager) (task_id : String) (f : UpdateFields)
    (now : ℚ) : Option TaskInfo × TaskManager :=
  match m task_id with
  | some t =>
    let updated := t.update f now
    (some updated, fun k => if k = task_id then some updated else m k)
  | none => (none, m)

/-- Claim C8: update_task applies exactly the supplied (non-absent) fields,
keeps every other field (including result and error), always refreshes
updated_at, never touches other records, and, for a missing task id, returns
not-found and changes nothing. -/
theorem claim_C8 (m : TaskManager) (task_id : String) (f : UpdateFields) (now : ℚ) :
    (∀ t : TaskInfo, m task_id = some t →
      (TaskManager.update_task m task_id f now).1 = some (t.update f now) ∧
      (TaskManager.update_task m task_id f now).2 task_id = some (t.update f now) ∧
      (∀ k, k ≠ task_id → (TaskManager.update_task m task_id f now).2 k = m k) ∧
      (t.update f now).status = f.status.getD t.status ∧
      (t.update f now).progress = f.progress.getD t.progress ∧
      (t.update f now).message = f.message.getD t.message ∧
      (t.update f now).result = f.result.or t.result ∧
      (t.update f now).error = f.error.or t.error ∧
      (t.update f now).updated_at = now ∧
      (t.update f now).task_id = t.task_id ∧
      (t.update f now).created_at = t.created_at) ∧
    (m task_id = none → TaskManager.update_task m task_id f now = (none, m)) := by
  constructor
  · intro t ht
    refine ⟨?_, ?_, ?_, ?_, ?_, ?_, ?_, ?_, rfl, rfl, rfl⟩
    · simp [TaskManager.update_task, ht]
    · simp [TaskManager.update_task, ht]
    · intro k hk
      simp [TaskManager.update_task, ht, hk]
    · cases hs : f.status <;> simp [TaskInfo.update, hs]
    · cases hp : f.progress <;> simp [TaskInfo.update, hp]
    · cases hm : f.message <;> simp [TaskInfo.update, hm]
    · cases hr : f.result <;> simp [TaskInfo.update, hr, Option.or]
    · cases he : f.error <;> simp [TaskInfo.update, he, Option.or]
  · intro ht
    simp [TaskManager.update_task, ht]

/-- Sample record used only to witness claim C8 at a concrete input. -/
def sampleTask : TaskInfo :=
  { task_id := "t1", status := TaskStatus.pending, progress := 0,
    message := "Task created", created_at := 5, updated_at := 5,
    result := none, error := none }

/-- Sample store used only to witness claim C8 at a concrete input. -/
def sampleStore : TaskManager := fun k => if k = "t1" then some sampleTask else none

/-- Sample sparse update used only to witness claim C8 at a concrete input. -/
def sampleFields : UpdateFields :=
  { status := some TaskStatus.downloading, progress := some 10 }

theorem claim_C8_witness :
    (TaskManager.update_task sampleStore "t1" sampleFields 9).1 =
      some (sampleTask.update sampleFields 9) ∧
    (TaskManager.update_task sampleStore "t1" sampleFields 9).2 "t2" = sampleStore "t2" ∧
    (sampleTask.update sampleFields 9).message = sampleFields.message.getD sampleTask.message ∧
    TaskManager.update_task sampleStore "t2" sampleFields 9 = (none, sampleStore) := by
  have h1 := (claim_C8 sampleStore "t1" sampleFields 9).1 sampleTask (by decide)
  have h2 := (claim_C8 sampleStore "t2" sampleFields 9).2 (by decide)
  exact ⟨h1.1, h1.2.2.1 "t2" (by decide), h1.2.2.2.2.2.1, h2⟩

/-- Metadata dictionary returned by a downloader, as consumed by
process_podcast (app.py lines 143-177): optional fields are read with .get
and a default; video_id is accessed directly. -/
structure Metadata where
  title : Option String
  thumbnail : Option String
  channel : Option String
  duration_string : Option String
  release_date : Option String
  video_id : String
deriving DecidableEq

/-- Step 1 update of process_podcast (app.py lines 135-140). -/
def downloadingUpdate : UpdateFields :=
  { status := some TaskStatus.downloading, progress := some 10,
    message := some "Processing audio source..." }

/-- Step 2 update of process_podcast (app.py lines 147-152). -/
def transcribingUpdate : UpdateFields :=
  { status := some TaskStatus.transcribing, progress := some 30,
    message := some "Transcribing audio to text..." }

/-- Step 3 update of process_podcast (app.py lines 160-165). -/
def summarizingUpdate : UpdateFields :=
  { status := some TaskStatus.summarizing, progress := some 70,
    message := some "Generating AI summary..." }

/-- Completion update of process_podcast (app.py lines 180-186). -/
def completedUpdate (result : SummaryResult) : UpdateFields :=
  { status := some TaskStatus.completed, progress := some 100,
    message := some "Summary completed successfully!", result := some result }

/-- Failure update of process_podcast (app.py lines 194-200): note the
message is "Processing failed". -/
def failedUpdate (error_message : String) : UpdateFields :=
  { status := some TaskStatus.failed, progress := some 0,
    message := some "Processing failed", error := some error_message }

/-- Result dictionary of process_podcast (app.py lines 171-178), with the
.get defaults of the source. -/
def build_result (metadata : Metadata) (summary : String) : SummaryResult :=
  { title := metadata.title.getD "Unknown Title",
    summary := summary,
    thumbnail := metadata.thumbnail,
    channel := metadata.channel.getD "Unknown Channel",
    duration_string := metadata.duration_string.getD "Unknown",
    release_date := metadata.release_date.getD "Unknown" }

/-- process_podcast (app.py lines 117-200), modelled as the sequence of
update_task calls it performs.  Collaborator calls are modelled as values of
Except: an error value stands for a raised exception carrying its stringified
message; the try/except block turns any of them into the single terminal
failure update, after which the worker returns normally (the function is
total and the exception does not escape). -/
def process_podcast_writes (platform : String)
    (yt_download rss_download : Except String (String × Metadata))
    (transcribe : String → String → Except String String)
    (summarize : String → ℚ → Except String String)
    (detail_level : ℚ) : List UpdateFields :=
  let downloaded := if platform = "youtube" then yt_download else rss_download
  match downloaded with
  | Except.error e => [downloadingUpdate, failedUpdate e]
  | Except.ok (audio_path, metadata) =>
    match transcribe audio_path metadata.video_id with
    | Except.error e => [downloadingUpdate, transcribingUpdate, failedUpdate e]
    | Except.ok transcription =>
      match summarize transcription detail_level with
      | Except.error e =>
          [downloadingUpdate, transcribingUpdate, summarizingUpdate, failedUpdate e]
      | Except.ok summary =>
          [downloadingUpdate, transcribingUpdate, summarizingUpdate,
            completedUpdate (build_result metadata summary)]

/-- Status trace of one task: the pending status written by create_task
followed by every status written by process_podcast. -/
def task_status_trace (m : TaskManager) (task_id : String) (now : ℚ)
    (platform : String) (yt_download rss_download : Except String (String × Metadata))
    (transcribe : String → String → Except String String)
    (summarize : String → ℚ → Except String String)
    (detail_level : ℚ) : List TaskStatus :=
  (TaskManager.create_task m task_id now).1.status ::
    (process_podcast_writes platform yt_download rss_download transcribe summarize
      detail_level).filterMap (fun w => w.status)

/-- Position of each status on the forward path; failed sits past completed
so that a transition into failed is never a regression. -/
def status_rank : TaskStatus → ℕ
  | TaskStatus.pending => 0
  | TaskStatus.downloading => 1
  | TaskStatus.transcribing => 2
  | TaskStatus.summarizing => 3
  | TaskStatus.completed => 4
  | TaskStatus.failed => 5

/-- One admissible transition of the task state machine: the source state is
non-terminal, and the step either moves to the immediate next state on the
path or jumps to failed. -/
def status_step (s s2 : TaskStatus) : Prop :=
  s ≠ TaskStatus.completed ∧ s ≠ TaskStatus.failed ∧
  (s2 = TaskStatus.failed ∨ status_rank s2 = status_rank s + 1)

/-- Claim C5 is false as stated: when the download stage raises "boom", the
worker writes the terminal failure update whose message is
"Processing failed", not "Failed" as the claim states. -/
theorem claim_C5_counterexample :
    (process_podcast_writes "youtube" (Except.error "boom") (Except.error "unused")
        (fun _ _ => Except.ok "") (fun _ _ => Except.ok "") 0).getLast? =
      some (failedUpdate "boom") ∧
    (failedUpdate "boom").message = some "Processing failed" ∧
    some "Processing failed" ≠ some ("Failed" : String) := by
  refine ⟨?_, rfl, by decide⟩
  simp [process_podcast_writes]

/-- Claim C5 (amended): a collaborator exception at any stage (download,
transcribe, summarize) aborts the remaining stages; the worker function
returns normally (the model is a total function, the error value does not
escape) after writing exactly one final update with status failed,
progress 0, message "Processing failed" and error set to the stringified
exception; no later stage update is written. -/
theorem claim_C5_amended (platform : String)
    (yt_download rss_download : Except String (String × Metadata))
    (transcribe : String → String → Except String String)
    (summarize : String → ℚ → Except String String) (detail_level : ℚ) :
    (∀ e, (if platform = "youtube" then yt_download else rss_download) = Except.error e →
      process_podcast_writes platform yt_download rss_download transcribe summarize detail_level =
        [downloadingUpdate, failedUpdate e]) ∧
    (∀ e audio_path metadata,
      (if platform = "youtube" then yt_download else rss_download) =
        Except.ok (audio_path, metadata) →
      transcribe audio_path metadata.video_id = Except.error e →
      process_podcast_writes platform yt_download rss_download transcribe summarize detail_level =
        [downloadingUpdate, transcribingUpdate, failedUpdate e]) ∧
    (∀ e audio_path metadata transcription,
      (if platform = "youtube" then yt_download else rss_download) =
        Except.ok (audio_path, metadata) →
      transcribe audio_path metadata.video_id = Except.ok transcription →
      summarize transcription detail_level = Except.error e →
      process_podcast_writes platform yt_download rss_download transcribe summarize detail_level =
        [downloadingUpdate, transcribingUpdate, summarizingUpdate, failedUpdate e]) ∧
    (∀ e, (failedUpdate e).status = some TaskStatus.failed ∧
      (failedUpdate e).progress = some 0 ∧
      (failedUpdate e).message = some "Processing failed" ∧
      (failedUpdate e).error = some e) := by
  refine ⟨?_, ?_, ?_, fun e => ⟨rfl, rfl, rfl, rfl⟩⟩
  · intro e hdl
    simp [process_podcast_writes, hdl]
  · intro e audio_path metadata hdl htr
    simp [process_podcast_writes, hdl, htr]
  · intro e audio_path metadata transcription hdl htr hsm
    simp [process_podcast_writes, hdl, htr, hsm]

theorem claim_C5_amended_witness :
    process_podcast_writes "youtube" (Except.error "boom") (Except.error "unused")
        (fun _ _ => Except.ok "") (fun _ _ => Except.ok "") 0 =
      [downloadingUpdate, failedUpdate "boom"] ∧
    process_podcast_writes "rss"
        (Except.error "unused")
        (Except.ok ("a.mp3", ⟨none, none, none, none, none, "v1"⟩))
        (fun _ _ => Except.error "salad down") (fun _ _ => Except.ok "") 0 =
      [downloadingUpdate, transcribingUpdate, failedUpdate "salad down"] ∧
    process_podcast_writes "rss"
        (Except.error "unused")
        (Except.ok ("a.mp3", ⟨none, none, none, none, none, "v1"⟩))
        (fun _ _ => Except.ok "text") (fun _ _ => Except.error "no choices") 0 =
      [downloadingUpdate, transcribingUpdate, summarizingUpdate, failedUpdate "no choices"] := by
  refine ⟨?_, ?_, ?_⟩
  · exact (claim_C5_amended "youtube" (Except.error "boom") (Except.error "unused")
      (fun _ _ => Except.ok "") (fun _ _ => Except.ok "") 0).1 "boom" rfl
  · exact (claim_C5_amended "rss" (Except.error "unused")
      (Except.ok ("a.mp3", ⟨none, none, none, none, none, "v1"⟩))
      (fun _ _ => Except.error "salad down") (fun _ _ => Except.ok "") 0).2.1
      "salad down" "a.mp3" ⟨none, none, none, none, none, "v1"⟩ rfl rfl
  · exact (claim_C5_amended "rss" (Except.error "unused")
      (Except.ok ("a.mp3", ⟨none, none, none, none, none, "v1"⟩))
      (fun _ _ => Except.ok "text") (fun _ _ => Except.error "no choices") 0).2.2.1
      "no choices" "a.mp3" ⟨none, none, none, none, none, "v1"⟩ "text" rfl rfl rfl

/-- Claim C6: for every task, the sequence of status values written to the
store (the pending written by create_task followed by every status written by
process_podcast) is a chain of admissible transitions: each step starts from
a non-terminal status and either advances to the immediate next status on the
path pending → downloading → transcribing → summarizing → completed or jumps
to failed; in particular no status regresses and nothing is written after
completed or failed. -/
theorem claim_C6 (m : TaskManager) (task_id : String) (now : ℚ)
    (platform : String) (yt_download rss_download : Except String (String × Metadata))
    (transcribe : String → String → Except String String)
    (summarize : String → ℚ → Except String String) (detail_level : ℚ) :
    List.Chain' status_step
      (task_status_trace m task_id now platform yt_download rss_download
        transcribe summarize detail_level) := by
  rw [task_status_trace, TaskManager.create_task, process_podcast_writes]
  rcases hdl : (if platform = "youtube" then yt_download else rss_download) with e | ⟨audio, meta⟩
  · simp [hdl, List.chain'_cons, status_step, status_rank, downloadingUpdate, failedUpdate]
  · rcases htr : transcribe audio meta.video_id with e | transcription
    · simp [hdl, htr, List.chain'_cons, status_step, status_rank, downloadingUpdate,
        transcribingUpdate, failedUpdate]
    · rcases hsm : summarize transcription detail_level with e | summary
      · simp [hdl, htr, hsm, List.chain'_cons, status_step, status_rank, downloadingUpdate,
          transcribingUpdate, summarizingUpdate, failedUpdate]
      · simp [hdl, htr, hsm, List.chain'_cons, status_step, status_rank, downloadingUpdate,
          transcribingUpdate, summarizingUpdate, completedUpdate]

/-- Fields of the job-status JSON read by transcribe_from_url
(salad_transcriber.py lines 265-287): the top-level status and error fields
and the error/text fields of the output object, each possibly absent. -/
structure SaladJobStatus where
  status : Option String
  error : Option String
  output_error : Option String
  output_text : Option String

/-- Outcome of one status poll: either a decoded job status, or a raised
requests.RequestException carrying its message. -/
inductive PollResponse
  | ok (job : SaladJobStatus)
  | exn (e : String)

/-- max_attempts of the polling loop (salad_transcriber.py line 254). -/
def salad_max_attempts : ℕ := 120

/-- The job statuses treated as still in progress
(salad_transcriber.py line 268). -/
def in_progress_statuses : List String := ["created", "pending", "started", "running"]

/-- The polling while-loop of transcribe_from_url (salad_transcriber.py lines
254-296), as a function of the sequence of poll outcomes, starting at the
given attempt counter.  An in-progress status sleeps (not modelled: the fixed
7-second interval is real time) and retries; "succeeded" returns the text or
raises on a non-empty output error (Python truthiness: an empty error string
is falsy); any other status raises; a RequestException retries unless the
attempt counter has reached max_attempts - 1, in which case it is re-raised
and converted by the outer handler into "Transcription request failed";
falling out of the loop raises "Transcription job timed out". -/
def pollFrom (responses : ℕ → PollResponse) (attempt : ℕ) : Except String String :=
  if h : attempt < salad_max_attempts then
    match responses attempt with
    | PollResponse.exn _e =>
      if salad_max_attempts - 1 ≤ attempt then
        Except.error "Transcription request failed"
      else
        pollFrom responses (attempt + 1)
    | PollResponse.ok job =>
      match job.status with
      | some s =>
        if s ∈ in_progress_statuses then
          pollFrom responses (attempt + 1)
        else if s = "succeeded" then
          match job.output_error with
          | some err =>
            if err ≠ "" then Except.error ("Transcription error: " ++ err)
            else Except.ok (job.output_text.getD "")
          | none => Except.ok (job.output_text.getD "")
        else
          Except.error ("Transcription job failed: " ++
            job.error.getD ("Job failed with status: " ++ s))
      | none =>
        Except.error ("Transcription job failed: " ++
          job.error.getD "Job failed with status: None")
  else
    Except.error "Transcription job timed out"
termination_by salad_max_attempts - attempt
decreasing_by
  all_goals omega

/-- transcribe_from_url (salad_transcriber.py lines 221-300): a failed job
submission is converted by the outer handler into "Transcription request
failed"; otherwise the polling loop runs from attempt 0. -/
def transcribe_from_url_result (submit : Except String String)
    (responses : ℕ → PollResponse) : Except String String :=
  match submit with
  | Except.error _ => Except.error "Transcription request failed"
  | Except.ok _job_id => pollFrom responses 0

theorem pollFrom_congr (n : ℕ) :
    ∀ (attempt : ℕ) (responses responses2 : ℕ → PollResponse),
    salad_max_attempts - attempt ≤ n →
    (∀ i, attempt ≤ i → i < salad_max_attempts → responses i = responses2 i) →
    pollFrom responses attempt = pollFrom responses2 attempt := by
  induction n with
  | zero =>
    intro attempt r r2 hle _
    have hge : ¬ attempt < salad_max_attempts := by omega
    conv_lhs => rw [pollFrom]
    conv_rhs => rw [pollFrom]
    simp [hge]
  | succ n ih =>
    intro attempt r r2 hle hi
    by_cases hlt : attempt < salad_max_attempts
    · have hr2 : r2 attempt = r attempt := (hi attempt (Nat.le_refl _) hlt).symm
      conv_lhs => rw [pollFrom]
      conv_rhs => rw [pollFrom]
      rw [dif_pos hlt, dif_pos hlt, hr2]
      have hrec : pollFrom r (attempt + 1) = pollFrom r2 (attempt + 1) :=
        ih (attempt + 1) r r2 (by omega) (fun i h1 h2 => hi i (by omega) h2)
      cases hresp : r attempt with
      | exn e =>
        by_cases hlast : salad_max_attempts - 1 ≤ attempt
        · simp [hlast]
        · simp [hlast, hrec]
      | ok job =>
        cases hstat : job.status with
        | none => simp [hstat]
        | some s =>
          by_cases hprog : s ∈ in_progress_statuses
          · simp [hstat, hprog, hrec]
          · simp [hstat, hprog]
    · conv_lhs => rw [pollFrom]
      conv_rhs => rw [pollFrom]
      simp [hlt]

theorem pollFrom_timeout (n : ℕ) :
    ∀ (attempt : ℕ) (responses : ℕ → PollResponse),
    salad_max_attempts - attempt ≤ n →
    (∀ i, attempt ≤ i → i < salad_max_attempts →
      ∃ job s, responses i = PollResponse.ok job ∧ job.status = some s ∧
        s ∈ in_progress_statuses) →
    pollFrom responses attempt = Except.error "Transcription job timed out" := by
  induction n with
  | zero =>
    intro attempt r hle _
    have hge : ¬ attempt < salad_max_attempts := by omega
    conv_lhs => rw [pollFrom]
    simp [hge]
  | succ n ih =>
    intro attempt r hle hi
    by_cases hlt : attempt < salad_max_attempts
    · obtain ⟨job, s, hresp, hstat, hprog⟩ := hi attempt (Nat.le_refl _) hlt
      conv_lhs => rw [pollFrom]
      rw [dif_pos hlt, hresp]
      simp only [hstat, hprog, if_true, if_pos]
      exact ih (attempt + 1) r (by omega) (fun i h1 h2 => hi i (by omega) h2)
    · conv_lhs => rw [pollFrom]
      simp [hlt]

/-- Claim C9: the polling loop of transcribe_from_url is bounded by the fixed
ceiling of 120 attempts — its result depends only on the first 120 poll
outcomes, so it terminates for every possible sequence of poll responses —
and when every poll up to the ceiling reports a non-terminal in-progress job
status, it raises the timeout failure "Transcription job timed out" instead
of waiting further. -/
theorem claim_C9 :
    salad_max_attempts = 120 ∧
    (∀ (responses responses2 : ℕ → PollResponse),
      (∀ i, i < salad_max_attempts → responses i = responses2 i) →
      pollFrom responses 0 = pollFrom responses2 0) ∧
    (∀ responses : ℕ → PollResponse,
      (∀ i, i < salad_max_attempts →
        ∃ job s, responses i = PollResponse.ok job ∧ job.status = some s ∧
          s ∈ in_progress_statuses) →
      pollFrom responses 0 = Except.error "Transcription job timed out") := by
  refine ⟨rfl, ?_, ?_⟩
  · intro r r2 hi
    exact pollFrom_congr salad_max_attempts 0 r r2 (by omega) (fun i _ h2 => hi i h2)
  · intro r hi
    exact pollFrom_timeout salad_max_attempts 0 r (by omega) (fun i _ h2 => hi i h2)

theorem claim_C9_witness :
    pollFrom (fun _ => PollResponse.ok ⟨some "running", none, none, none⟩) 0 =
      pollFrom (fun i => if i < 120 then PollResponse.ok ⟨some "running", none, none, none⟩
        else PollResponse.exn "late") 0 ∧
    pollFrom (fun _ => PollResponse.ok ⟨some "running", none, none, none⟩) 0 =
      Except.error "Transcription job timed out" := by
  constructor
  · exact claim_C9.2.1 _ _ (fun i hi => by
      simp only [salad_max_attempts] at hi
      simp [hi])
  · exact claim_C9.2.2 _ (fun i _ =>
      ⟨⟨some "running", none, none, none⟩, "running", rfl, rfl, by simp [in_progress_statuses]⟩)
